import Mathlib

/-!
Verification of the reminders-mcp marshalling bridge (src/index.ts).

The TypeScript source builds AppleScript command text by string
concatenation, runs it out of process, decodes the reply, and normalizes
the decoded records.  This file shallowly embeds the pure parts of that
code: the escaping helpers, the priority tables, the date normalizer, the
decoder fallback, the command renderers for create/update, the bulk-create
coordinator, the per-query record normalizers, and the query predicates.
Strings are modelled with Lean strings (or lists of characters for the
escaping proofs); the JavaScript `Date` machinery is abstracted as a
`DateEnv` record of parse/format functions; the `osascript` subprocess is
abstracted as an oracle `String → Except String String` giving the stdout
or the thrown error message of one invocation.
-/

/-! ## Character-level escaping model (createReminder / read-back path) -/

/-- Global single-character replacement, the model of both
`String.replace(/c/g, r)` on the TypeScript side and the AppleScript
`replaceText` handler with a one-character search string. -/
def replaceChar (t : Char) (r : List Char) : List Char → List Char
  | [] => []
  | c :: cs => (if c = t then r else [c]) ++ replaceChar t r cs

/-- The create-side escaping in `createReminder`
(`name.replace(/"/g, '\\"')`): only double quotes are escaped. -/
def escQuotes (s : List Char) : List Char :=
  replaceChar '"' ['\\', '"'] s

/-- Escape sequence interpretation of one AppleScript string-literal
escape `\c`. -/
def asInv (c : Char) : Char :=
  if c = 'n' then '\n'
  else if c = 'r' then '\r'
  else if c = 't' then '\t'
  else c

/-- Interpretation of an AppleScript string literal body: the value the
native store receives when the rendered command text is executed. -/
def asUnesc : List Char → List Char
  | [] => []
  | c :: cs =>
    if c = '\\' then
      match cs with
      | [] => ['\\']
      | d :: ds => asInv d :: asUnesc ds
    else c :: asUnesc cs

/-- The read-side escaping applied by the generated AppleScript before
emitting a field into its hand-built JSON text (`replaceText` chain in
`getReminders`): backslash first, then quote, then the AppleScript
`return` character (CR) to the two characters `\n`. -/
def readEsc (s : List Char) : List Char :=
  replaceChar '\r' ['\\', 'n']
    (replaceChar '"' ['\\', '"']
      (replaceChar '\\' ['\\', '\\'] s))

/-- Interpretation of one JSON string escape `\c`: the escapes JSON
permits map to their characters, anything else is invalid (`none`).
(`\uXXXX` is also treated as invalid here; the generated read-side
escaping never produces it.) -/
def jsonInv (c : Char) : Option Char :=
  if c = 'n' then some '\n'
  else if c = 'r' then some '\r'
  else if c = 't' then some '\t'
  else if c = 'b' then some '\x08'
  else if c = 'f' then some '\x0C'
  else if c = '"' then some '"'
  else if c = '\\' then some '\\'
  else if c = '/' then some '/'
  else none

/-- JSON string-body unescaping, the model of what `JSON.parse` does to
the characters of one string value.  `none` models a parse exception:
`JSON.parse` rejects a truncated or invalid escape and rejects any raw
(unescaped) control character U+0000–U+001F inside a string. -/
def jsonUnesc : List Char → Option (List Char)
  | [] => some []
  | c :: cs =>
    if c = '\\' then
      match cs with
      | [] => none
      | d :: ds =>
        match jsonInv d with
        | none => none
        | some e => (jsonUnesc ds).map (fun r => e :: r)
    else if c.toNat < 32 then none
    else (jsonUnesc cs).map (fun r => c :: r)

/-- Modelled from the spec: the single escaping function §4.1 prescribes
for every parameter interpolated into a quoted literal — backslashes
escaped before quotes, and the host line terminator replaced by a literal
two-character escape.  Defined for comparison with the create-side
function the code actually uses (`escQuotes`). -/
def specEscapeRenderer (s : List Char) : List Char :=
  replaceChar '\r' ['\\', 'n']
    (replaceChar '"' ['\\', '"']
      (replaceChar '\\' ['\\', '\\'] s))

/-- The full observable round trip for a name/body string: create-side
escaping, AppleScript literal interpretation (the stored value),
read-side JSON escaping, and `JSON.parse` unescaping; `none` means the
strict decode throws (and `runAppleScriptJSON` would fall back to the
raw text, so the read-back never equals the input). -/
def createRoundTrip (s : List Char) : Option (List Char) :=
  jsonUnesc (readEsc (asUnesc (escQuotes s)))

/-! ## Priority helpers -/

/-- `getPriorityName` from the source: symbolic projection of the numeric
priority code. -/
def getPriorityName (p : Int) : String :=
  if p = 0 then "none"
  else if 1 ≤ p ∧ p ≤ 4 then "high"
  else if p = 5 then "medium"
  else "low"

/-- ASCII lower casing of one character (A–Z only): the behaviour of
JavaScript `toLowerCase` on the ASCII range, and literally the
`toLowerCase` handler the generated search script defines. -/
def lowerAscii (c : Char) : Char :=
  if 'A' ≤ c ∧ c ≤ 'Z' then Char.ofNat (c.toNat + 32) else c

/-- String-level ASCII lower casing, the model of `s.toLowerCase()`. -/
def toLowerJS (s : String) : String :=
  String.mk (s.data.map lowerAscii)

/-- `getPriorityValue` from the source: case-insensitive symbolic name to
representative numeric code, defaulting to 0. -/
def getPriorityValue (name : String) : Int :=
  let n := toLowerJS name
  if n = "high" then 1
  else if n = "medium" then 5
  else if n = "low" then 9
  else if n = "none" then 0
  else 0

/-- The `priority` tool parameter is a number or a symbolic name
(`number | string` in the source). -/
inductive PriorityArg where
  | num (n : Int)
  | sym (s : String)
deriving DecidableEq

/-- `typeof priority === "string" ? getPriorityValue(priority) : priority`. -/
def resolvePriority : PriorityArg → Int
  | .num n => n
  | .sym s => getPriorityValue s

/-! ## Date environment and the timestamp normalizer -/

/-- Abstraction of the JavaScript `Date` machinery: `parse` models
`new Date(s)` (`none` when the result is `NaN`, as checked by
`parseDate`/`formatISODate`), `toISO` models `toISOString`, and `toAS`
models `formatDateForAppleScript`. -/
structure DateEnv (D : Type) where
  parse : String → Option D
  toISO : D → String
  toAS : D → String

/-- `formatISODate` from the source: empty or the `missing value`
sentinel normalizes to the empty string, an unparseable string
normalizes to the empty string, and a parseable string is re-emitted as
ISO-8601 text.  The function is total: no input raises. -/
def formatISODate {D : Type} (env : DateEnv D) (s : String) : String :=
  if s = "" ∨ s = "missing value" then ""
  else
    match env.parse s with
    | none => ""
    | some d => env.toISO d

/-! ## Decoder fallback (`runAppleScriptJSON`) -/

/-- The three shapes `runAppleScriptJSON` can return: the `[]` produced
for empty output, a structured parse, or the raw text fallback. -/
inductive DecodeOut (J : Type) where
  | emptyList
  | parsed (j : J)
  | raw (s : String)
deriving DecidableEq

/-- `runAppleScriptJSON` from the source, parametrized by the
`JSON.parse` front end (`parse s = none` models a parse exception).  The
function is total: a decoding failure produces the raw-text fallback,
never an error. -/
def runAppleScriptJSON {J : Type} (parse : String → Option J) (result : String) :
    DecodeOut J :=
  if result = "" then .emptyList
  else
    match parse result with
    | some j => .parsed j
    | none => .raw result

/-! ## Command renderer: createReminder and updateReminder -/

/-- String-level quote escaping, `s.replace(/"/g, '\\"')`. -/
def escQuoteStr (s : String) : String :=
  String.mk (escQuotes s.data)

/-- The options accepted by `createReminder` as they arrive from the
tool layer, where `name` may be absent (`args.name` is untyped there);
`url` is accepted but never used by the source. -/
structure CreateOptsJS where
  name : Option String := none
  body : Option String := none
  list : Option String := none
  dueDate : Option String := none
  priority : Option PriorityArg := none
  url : Option String := none
  flagged : Option Bool := none
deriving DecidableEq

/-- The optional `set priority of newReminder to …` line of the create
script: out-of-domain numeric input yields no line. -/
def createPriorityLine (p? : Option PriorityArg) : String :=
  match p? with
  | none => ""
  | some p =>
    let n := resolvePriority p
    if 0 ≤ n ∧ n ≤ 9 then "set priority of newReminder to " ++ toString n else ""

/-- The AppleScript command text built by `createReminder` once `name`
is known to be present. -/
def createReminderScript {D : Type} (env : DateEnv D) (name : String)
    (o : CreateOptsJS) : String :=
  let escapedName := escQuoteStr name
  let escapedBody := match o.body with | some b => escQuoteStr b | none => ""
  let listTarget := match o.list with
    | some l => "list \"" ++ escQuoteStr l ++ "\""
    | none => "default list"
  let dueDateLine := match o.dueDate with
    | none => ""
    | some ds =>
      if ds = "" then ""
      else match env.parse ds with
        | none => ""
        | some d => "set due date of newReminder to date \"" ++ env.toAS d ++ "\""
  let priorityLine := createPriorityLine o.priority
  let flaggedLine := match o.flagged with
    | none => ""
    | some b => "set flagged of newReminder to " ++ (if b then "true" else "false")
  "\n    tell application \"Reminders\"\n      set newReminder to make new reminder in "
    ++ listTarget ++ " with properties \x7bname:\"" ++ escapedName
    ++ "\", body:\"" ++ escapedBody ++ "\"\x7d\n      "
    ++ dueDateLine ++ "\n      " ++ priorityLine ++ "\n      " ++ flaggedLine
    ++ "\n      return id of newReminder\n    end tell\n  "

/-- Result object of `createReminder`. -/
structure CreateResult where
  success : Bool
  id : Option String := none
  error : Option String := none
deriving DecidableEq

/-- The JavaScript-level failure mode of the untyped call path: reading
`.replace` off an `undefined` name throws a `TypeError`. -/
inductive JsError where
  | typeError
deriving DecidableEq

/-- `createReminder` as callable from the untyped tool layer: a missing
`name` throws before any subprocess runs; otherwise the rendered script
is executed and the thrown-or-returned outcome is wrapped, so execution
failures are reported in-band as `success: false`. -/
def createReminderJS {D : Type} (env : DateEnv D)
    (exec : String → Except String String) (o : CreateOptsJS) :
    Except JsError CreateResult :=
  match o.name with
  | none => .error .typeError
  | some n =>
    match exec (createReminderScript env n o) with
    | .ok id => .ok { success := true, id := some id }
    | .error e => .ok { success := false, error := some e }

/-- The updatable fields of `updateReminder`; `dueDate` distinguishes
absent (`none`), JSON `null` (`some none`, clearing the date) and a
string (`some (some s)`). -/
structure UpdateOpts where
  name : Option String := none
  body : Option String := none
  dueDate : Option (Option String) := none
  priority : Option PriorityArg := none
  flagged : Option Bool := none
deriving DecidableEq

/-- The optional `set priority of theReminder to …` line of the update
script; like the create side, out-of-domain numbers produce no line. -/
def updatePriorityLines (p? : Option PriorityArg) : List String :=
  match p? with
  | none => []
  | some p =>
    let n := resolvePriority p
    if 0 ≤ n ∧ n ≤ 9 then ["set priority of theReminder to " ++ toString n] else []

/-- The `updateLines` array accumulated by `updateReminder`, in source
order: name, body, due date, priority, flagged. -/
def updateLines {D : Type} (env : DateEnv D) (u : UpdateOpts) : List String :=
  (match u.name with
    | some n => ["set name of theReminder to \"" ++ escQuoteStr n ++ "\""]
    | none => []) ++
  (match u.body with
    | some b => ["set body of theReminder to \"" ++ escQuoteStr b ++ "\""]
    | none => []) ++
  (match u.dueDate with
    | some none => ["set due date of theReminder to missing value"]
    | some (some ds) =>
      if ds = "" then []
      else match env.parse ds with
        | some d => ["set due date of theReminder to date \"" ++ env.toAS d ++ "\""]
        | none => []
    | none => []) ++
  updatePriorityLines u.priority ++
  (match u.flagged with
    | some b => ["set flagged of theReminder to " ++ (if b then "true" else "false")]
    | none => [])

/-- Result object of `updateReminder` and the other mutators. -/
structure UpdateResult where
  success : Bool
  error : Option String := none
deriving DecidableEq

/-- Whether `updateReminder` returned before rendering any command
(`immediate`, no subprocess spawned) or executed a script. -/
inductive UpdateOutcome where
  | immediate (r : UpdateResult)
  | ran (script : String) (r : UpdateResult)
deriving DecidableEq

/-- The update script text around the accumulated lines. -/
def updateScript (id : String) (lines : List String) : String :=
  "\n    tell application \"Reminders\"\n      set theReminder to reminder id \""
    ++ escQuoteStr id ++ "\"\n      " ++ String.intercalate "\n      " lines
    ++ "\n      return \"done\"\n    end tell\n  "

/-- `updateReminder` from the source: with no update lines it returns
`\x7bsuccess: false, error: "No updates provided"\x7d` without executing
anything; otherwise it runs the script and wraps the outcome. -/
def updateReminderJS {D : Type} (env : DateEnv D)
    (exec : String → Except String String) (id : String) (u : UpdateOpts) :
    UpdateOutcome :=
  let lines := updateLines env u
  if lines = [] then .immediate { success := false, error := some "No updates provided" }
  else
    match exec (updateScript id lines) with
    | .ok _ => .ran (updateScript id lines) { success := true }
    | .error e => .ran (updateScript id lines) { success := false, error := some e }

/-! ## Batch coordinator: bulkCreateReminders -/

/-- One descriptor of the `reminders` array given to bulk create; at the
JavaScript level `name` may be absent. -/
structure BulkItem where
  name : Option String := none
  body : Option String := none
  dueDate : Option String := none
  priority : Option PriorityArg := none
  flagged : Option Bool := none
deriving DecidableEq

/-- Aggregated result of a bulk create. -/
structure BulkResult where
  success : Bool
  created : Nat
  errors : List String
deriving DecidableEq

/-- The sequential loop of `bulkCreateReminders`, threading the
`created` counter and the `errors` list; a `TypeError` thrown by
`createReminder` propagates and aborts the remaining items. -/
def bulkGo {D : Type} (env : DateEnv D) (exec : String → Except String String)
    (list : Option String) :
    List BulkItem → Nat → List String → Except JsError BulkResult
  | [], created, errors =>
    .ok { success := errors.isEmpty, created := created, errors := errors }
  | i :: rest, created, errors =>
    match createReminderJS env exec
        { name := i.name, body := i.body, list := list, dueDate := i.dueDate,
          priority := i.priority, flagged := i.flagged } with
    | .error e => .error e
    | .ok r =>
      if r.success then bulkGo env exec list rest (created + 1) errors
      else
        bulkGo env exec list rest created
          (errors ++ ["Failed to create \"" ++ i.name.getD "" ++ "\": "
            ++ r.error.getD ""])

/-- `bulkCreateReminders` from the source. -/
def bulkCreateReminders {D : Type} (env : DateEnv D)
    (exec : String → Except String String) (items : List BulkItem)
    (list : Option String) : Except JsError BulkResult :=
  bulkGo env exec list items 0 []

/-! ## Record normalizers -/

/-- A reminder record as decoded from the hand-built JSON: `url` is never
emitted by any generated script, and `flagged` is emitted only by the
list-scoped fetch and the flagged query, so both are `Option`s (`none`
models an absent key / `undefined`). -/
structure RawRec where
  id : String := ""
  name : String := ""
  body : String := ""
  completed : Bool := false
  dueDate : String := ""
  priority : Int := 0
  list : String := ""
  creationDate : String := ""
  modificationDate : String := ""
  url : Option String := none
  flagged : Option Bool := none
deriving DecidableEq

/-- A record as returned to the caller; fields that may be left
`undefined` by a normalizer stay `Option`s. -/
structure OutRec where
  id : String
  name : String
  body : String
  completed : Bool
  dueDate : String
  priority : Int
  priorityName : Option String
  list : String
  creationDate : String
  modificationDate : String
  url : Option String
  flagged : Option Bool
deriving DecidableEq

/-- JavaScript `x || d` on an optional string: absent or empty falls back
to the default. -/
def jsOrStr (o : Option String) (d : String) : String :=
  match o with
  | none => d
  | some s => if s = "" then d else s

/-- JavaScript `x || d` on an optional boolean. -/
def jsOrBool (o : Option Bool) (d : Bool) : Bool :=
  match o with
  | none => d
  | some b => if b then b else d

/-- The per-record map of `getReminders`: dates normalized, the symbolic
priority projection added, and `url`/`flagged` defaulted with `|| ""` and
`|| false`. -/
def normGetReminders {D : Type} (env : DateEnv D) (r : RawRec) : OutRec :=
  { id := r.id, name := r.name, body := r.body, completed := r.completed,
    dueDate := if r.dueDate = "" then "" else formatISODate env r.dueDate,
    priority := r.priority,
    priorityName := some (getPriorityName r.priority),
    list := r.list,
    creationDate := formatISODate env r.creationDate,
    modificationDate := formatISODate env r.modificationDate,
    url := some (jsOrStr r.url ""),
    flagged := some (jsOrBool r.flagged false) }

/-- The per-record map of `getFlagged`, textually identical to the
`getReminders` one in the source. -/
def normGetFlagged {D : Type} (env : DateEnv D) (r : RawRec) : OutRec :=
  { id := r.id, name := r.name, body := r.body, completed := r.completed,
    dueDate := if r.dueDate = "" then "" else formatISODate env r.dueDate,
    priority := r.priority,
    priorityName := some (getPriorityName r.priority),
    list := r.list,
    creationDate := formatISODate env r.creationDate,
    modificationDate := formatISODate env r.modificationDate,
    url := some (jsOrStr r.url ""),
    flagged := some (jsOrBool r.flagged false) }

/-- The per-record map shared (textually repeated) by `searchReminders`,
`getDueToday`, `getOverdue` and `getUpcoming`: only the three date fields
are rewritten; every other field is spread through unchanged, so
`priorityName`, `url` and `flagged` keep whatever the decoded record had
(absent stays absent). -/
def normDatesOnly {D : Type} (env : DateEnv D) (r : RawRec) : OutRec :=
  { id := r.id, name := r.name, body := r.body, completed := r.completed,
    dueDate := if r.dueDate = "" then "" else formatISODate env r.dueDate,
    priority := r.priority,
    priorityName := none,
    list := r.list,
    creationDate := formatISODate env r.creationDate,
    modificationDate := formatISODate env r.modificationDate,
    url := r.url,
    flagged := r.flagged }

/-! ## Query predicates and the upcoming sort -/

/-- A reminder as the query layer sees it: due instants are modelled as
integer epoch seconds (AppleScript dates have second resolution, and both
the AppleScript window comparisons and the TypeScript post-sort order by
this instant). -/
structure Rem where
  name : String := ""
  body : String := ""
  completed : Bool := false
  due : Option Int := none
  flaggedB : Bool := false
deriving DecidableEq

/-- Sort key used by `getUpcoming`'s comparator
(`new Date(a.dueDate).getTime()`); within the filtered results the due
date is always present. -/
def dueKey (r : Rem) : Int :=
  r.due.getD 0

/-- The ascending-by-due ordering of the post-hoc sort. -/
def relDue (a b : Rem) : Prop :=
  dueKey a ≤ dueKey b

instance : DecidableRel relDue :=
  fun a b => Int.decLe (dueKey a) (dueKey b)

instance : IsTotal Rem relDue :=
  ⟨fun a b => Int.le_total (dueKey a) (dueKey b)⟩

instance : IsTrans Rem relDue :=
  ⟨fun _ _ _ h1 h2 => le_trans h1 h2⟩

/-- The `getUpcoming` window test from the generated AppleScript:
incomplete, a due date present, and
`rDueDate ≥ rightNow and rDueDate ≤ futureDate` with
`futureDate = rightNow + days * 24 * 60 * 60` — both ends inclusive. -/
def upcomingPred (now days : Int) (r : Rem) : Bool :=
  !r.completed &&
    (match r.due with
      | none => false
      | some d => decide (now ≤ d) && decide (d ≤ now + days * (24 * 60 * 60)))

/-- `getUpcoming`: filter, then the only post-hoc sort in the module
(`.sort((a, b) => …)` ascending by due instant, a stable sort). -/
def getUpcomingModel (now days : Int) (store : List Rem) : List Rem :=
  List.insertionSort relDue (store.filter (upcomingPred now days))

/-- The `getDueToday` window test: incomplete, due present, and
`rDueDate ≥ todayStart and rDueDate < todayEnd` with
`todayEnd = todayStart + 24 * 60 * 60`. -/
def dueTodayPred (dayStart : Int) (r : Rem) : Bool :=
  !r.completed &&
    (match r.due with
      | none => false
      | some d => decide (dayStart ≤ d) && decide (d < dayStart + 24 * 60 * 60))

/-- `getDueToday` over the flattened all-lists enumeration: a plain
filter, no reordering. -/
def dueTodayModel (dayStart : Int) (store : List Rem) : List Rem :=
  store.filter (dueTodayPred dayStart)

/-- The `getOverdue` test: incomplete, due present, strictly before now. -/
def overduePred (now : Int) (r : Rem) : Bool :=
  !r.completed &&
    (match r.due with
      | none => false
      | some d => decide (d < now))

/-- `getOverdue` over the flattened enumeration: a plain filter. -/
def overdueModel (now : Int) (store : List Rem) : List Rem :=
  store.filter (overduePred now)

/-- The `getFlagged` native predicate: flagged and incomplete. -/
def flaggedPred (r : Rem) : Bool :=
  r.flaggedB && !r.completed

/-- `getFlagged` over the flattened enumeration: a plain filter. -/
def flaggedModel (store : List Rem) : List Rem :=
  store.filter flaggedPred

/-- Literal list-prefix test on characters. -/
def startsWithL : List Char → List Char → Bool
  | [], _ => true
  | _ :: _, [] => false
  | a :: as, b :: bs => a = b && startsWithL as bs

/-- Substring containment on characters, AppleScript `contains`. -/
def hasSubL (needle : List Char) : List Char → Bool
  | [] => startsWithL needle []
  | c :: rest => startsWithL needle (c :: rest) || hasSubL needle rest

/-- The search match: lowercased name or body contains the lowercased
query. -/
def searchPred (q : String) (r : Rem) : Bool :=
  let ql := q.data.map lowerAscii
  hasSubL ql (r.name.data.map lowerAscii) || hasSubL ql (r.body.data.map lowerAscii)

/-- `searchReminders` result selection over the flattened enumeration:
the `matchCount < limit` guard makes the output the first `limit`
matches in enumeration order. -/
def searchFilterModel (q : String) (limit : Nat) (store : List Rem) : List Rem :=
  (store.filter (searchPred q)).take limit

/-- The optional completion filter of `getReminders`. -/
def completedPred (cf : Option Bool) (r : Rem) : Bool :=
  match cf with
  | some b => r.completed == b
  | none => true

/-- `getReminders` result selection: native completion filter, then the
`itemCount > limit` truncation. -/
def getRemindersModel (cf : Option Bool) (limit : Nat) (store : List Rem) : List Rem :=
  (store.filter (completedPred cf)).take limit

/-- A minimal incomplete reminder due at instant `t`, for boundary
checks. -/
def remAt (t : Int) : Rem :=
  { completed := false, due := some t }

/-! ## Tool dispatch (`handleToolCall`) and transport wrapper -/

/-- The argument bag of one tool invocation; `none` models an absent
(`undefined`) field. -/
structure ToolArgs where
  name : Option String := none
  reminder_id : Option String := none
  query : Option String := none
  list : Option String := none
  body : Option String := none
  due_date : Option String := none
  priority : Option PriorityArg := none
  flagged : Option Bool := none
  days : Option Int := none
  limit : Option Int := none
  completed : Option Bool := none
  reminders : Option (List BulkItem) := none
  reminder_ids : Option (List String) := none
deriving DecidableEq

/-- The operation `handleToolCall` would go on to perform once
validation passes; validation failures never reach any of these. -/
inductive ToolAction where
  | checkPermissions
  | getLists
  | getReminders (list : Option String) (completed : Option Bool) (limit : Option Int)
  | create (o : CreateOptsJS)
  | complete (id : String)
  | uncomplete (id : String)
  | delete (id : String)
  | update (id : String) (u : UpdateOpts)
  | search (q : String) (list : Option String) (limit : Option Int)
  | dueToday
  | overdue
  | upcoming (days : Int)
  | flagged
  | createList (n : String)
  | deleteList (n : String)
  | bulkCreate (items : List BulkItem) (list : Option String)
  | bulkComplete (ids : List String)
  | bulkDelete (ids : List String)
  | openReminder (id : String)
  | openList (n : String)
deriving DecidableEq

/-- JavaScript falsiness of an optional string field (`!args.x`): absent
or empty. -/
def jsFalsy : Option String → Bool
  | none => true
  | some s => s == ""

/-- `handleToolCall` from the source: per-tool validation happens first
and throws (`Except.error`) before any action — and hence any
subprocess — exists; the `Except.ok` payload records the operation that
would then run. -/
def handleToolCall (name : String) (args : ToolArgs) : Except String ToolAction :=
  if name == "reminders_check_permissions" then .ok .checkPermissions
  else if name == "reminders_get_lists" then .ok .getLists
  else if name == "reminders_get_reminders" then
    .ok (.getReminders args.list args.completed args.limit)
  else if name == "reminders_create" then
    if jsFalsy args.name then .error "name is required"
    else
      .ok (.create
        { name := args.name, body := args.body, list := args.list,
          dueDate := args.due_date, priority := args.priority,
          flagged := args.flagged })
  else if name == "reminders_complete" then
    if jsFalsy args.reminder_id then .error "reminder_id is required"
    else .ok (.complete (args.reminder_id.getD ""))
  else if name == "reminders_uncomplete" then
    if jsFalsy args.reminder_id then .error "reminder_id is required"
    else .ok (.uncomplete (args.reminder_id.getD ""))
  else if name == "reminders_delete" then
    if jsFalsy args.reminder_id then .error "reminder_id is required"
    else .ok (.delete (args.reminder_id.getD ""))
  else if name == "reminders_update" then
    if jsFalsy args.reminder_id then .error "reminder_id is required"
    else
      .ok (.update (args.reminder_id.getD "")
        { name := args.name, body := args.body,
          dueDate := args.due_date.map some, priority := args.priority,
          flagged := args.flagged : UpdateOpts })
  else if name == "reminders_search" then
    if jsFalsy args.query then .error "query is required"
    else .ok (.search (args.query.getD "") args.list args.limit)
  else if name == "reminders_get_due_today" then .ok .dueToday
  else if name == "reminders_get_overdue" then .ok .overdue
  else if name == "reminders_get_upcoming" then
    .ok (.upcoming
      (match args.days with
        | some d => if d = 0 then 7 else d
        | none => 7))
  else if name == "reminders_get_flagged" then .ok .flagged
  else if name == "reminders_create_list" then
    if jsFalsy args.name then .error "name is required"
    else .ok (.createList (args.name.getD ""))
  else if name == "reminders_delete_list" then
    if jsFalsy args.name then .error "name is required"
    else .ok (.deleteList (args.name.getD ""))
  else if name == "reminders_bulk_create" then
    match args.reminders with
    | none => .error "reminders array is required"
    | some items => .ok (.bulkCreate items args.list)
  else if name == "reminders_bulk_complete" then
    match args.reminder_ids with
    | none => .error "reminder_ids array is required"
    | some ids => .ok (.bulkComplete ids)
  else if name == "reminders_bulk_delete" then
    match args.reminder_ids with
    | none => .error "reminder_ids array is required"
    | some ids => .ok (.bulkDelete ids)
  else if name == "reminders_open" then
    .ok (.openReminder (args.reminder_id.getD ""))
  else if name == "reminders_open_list" then
    if jsFalsy args.name then .error "name is required"
    else .ok (.openList (args.name.getD ""))
  else .error ("Unknown tool: " ++ name)

/-- One MCP text payload with its error flag. -/
structure ToolResponse where
  text : String
  isError : Bool
deriving DecidableEq

/-- The `CallToolRequest` handler in `main`: run the tool and wrap, or
catch the thrown message into an `Error: …` payload with the error flag
set.  `run` abstracts the execution of a validated action. -/
def wrapToolCall (run : ToolAction → String) (name : String) (args : ToolArgs) :
    ToolResponse :=
  match handleToolCall name args with
  | .ok act => { text := run act, isError := false }
  | .error m => { text := "Error: " ++ m, isError := true }

/-! ## Concrete environments and inputs used by witnesses -/

/-- A concrete date environment over integer timestamps: exactly the
string "2024-01-01" parses (to instant 0). -/
def dateEnvW : DateEnv Int :=
  ⟨fun t => if t = "2024-01-01" then some 0 else none,
   fun _ => "1970-01-01T00:00:00.000Z",
   fun _ => "January 1, 1970 at 12:00:00 AM"⟩

/-- An executor oracle that always succeeds. -/
def execOk : String → Except String String :=
  fun _ => .ok "new-id"

/-- Bulk-create descriptors used in the concrete scenarios. -/
def itemA : BulkItem := { name := some "A" }

/-- Second descriptor, valid. -/
def itemB : BulkItem := { name := some "B" }

/-- Third descriptor, valid. -/
def itemC : BulkItem := { name := some "C" }

/-- A descriptor with the mandatory `name` absent. -/
def itemBad : BulkItem := {}

/-- An executor oracle that fails exactly on item B's create script. -/
def execFailB : String → Except String String :=
  fun s =>
    if s = createReminderScript dateEnvW "B"
        { name := some "B", body := none, list := none, dueDate := none,
          priority := none, flagged := none } then
      .error "boom"
    else .ok "new-id"

/-! ## Supporting lemmas -/

theorem asUnesc_cons_esc (d : Char) (ds : List Char) :
    asUnesc ('\\' :: d :: ds) = asInv d :: asUnesc ds := rfl

theorem asUnesc_cons (c : Char) (h : c ≠ '\\') (cs : List Char) :
    asUnesc (c :: cs) = c :: asUnesc cs := by
  rw [asUnesc.eq_def]
  simp [h]

theorem jsonUnesc_cons_esc (d e : Char) (ds : List Char) (hd : jsonInv d = some e) :
    jsonUnesc ('\\' :: d :: ds) = (jsonUnesc ds).map (fun r => e :: r) := by
  rw [jsonUnesc.eq_def]
  simp [hd]

theorem jsonUnesc_cons (c : Char) (h1 : c ≠ '\\') (h2 : ¬(c.toNat < 32))
    (cs : List Char) :
    jsonUnesc (c :: cs) = (jsonUnesc cs).map (fun r => c :: r) := by
  rw [jsonUnesc.eq_def]
  simp [h1, h2]

theorem replaceChar_eq_self {t : Char} {r : List Char} :
    ∀ {s : List Char}, t ∉ s → replaceChar t r s = s
  | [], _ => rfl
  | c :: cs, h => by
    have hc : ¬(c = t) := fun e => h (e ▸ List.mem_cons_self c cs)
    have hcs : t ∉ cs := fun m => h (List.mem_cons_of_mem c m)
    simp [replaceChar, hc, replaceChar_eq_self hcs]

theorem mem_replaceChar {t x : Char} {r : List Char} :
    ∀ {s : List Char}, x ∈ replaceChar t r s → x ∈ r ∨ x ∈ s
  | [], h => by simp [replaceChar] at h
  | c :: cs, h => by
    simp only [replaceChar, List.mem_append] at h
    rcases h with h | h
    · by_cases e : c = t
      · rw [if_pos e] at h
        exact Or.inl h
      · rw [if_neg e] at h
        simp only [List.mem_singleton] at h
        exact Or.inr (h ▸ List.mem_cons_self c cs)
    · rcases mem_replaceChar h with h2 | h2
      · exact Or.inl h2
      · exact Or.inr (List.mem_cons_of_mem c h2)

theorem asUnesc_escQuotes : ∀ {s : List Char}, '\\' ∉ s → asUnesc (escQuotes s) = s
  | [], _ => rfl
  | c :: cs, h => by
    have hc : c ≠ '\\' := fun e => h (e ▸ List.mem_cons_self c cs)
    have hcs : '\\' ∉ cs := fun m => h (List.mem_cons_of_mem c m)
    by_cases e : c = '"'
    · subst e
      have hq : escQuotes ('"' :: cs) = '\\' :: '"' :: escQuotes cs := by
        simp [escQuotes, replaceChar]
      rw [hq, asUnesc_cons_esc]
      have hi : asInv '"' = '"' := rfl
      rw [hi, asUnesc_escQuotes hcs]
    · have hq : escQuotes (c :: cs) = c :: escQuotes cs := by
        simp [escQuotes, replaceChar, e]
      rw [hq, asUnesc_cons c hc, asUnesc_escQuotes hcs]

theorem jsonUnesc_quoteEsc :
    ∀ {s : List Char}, '\\' ∉ s → (∀ c ∈ s, 32 ≤ c.toNat) →
      jsonUnesc (replaceChar '"' ['\\', '"'] s) = some s
  | [], _, _ => rfl
  | c :: cs, h, hctrl => by
    have hc : c ≠ '\\' := fun e => h (e ▸ List.mem_cons_self c cs)
    have hcs : '\\' ∉ cs := fun m => h (List.mem_cons_of_mem c m)
    have hc32 : 32 ≤ c.toNat := hctrl c (List.mem_cons_self c cs)
    have hcs32 : ∀ x ∈ cs, 32 ≤ x.toNat :=
      fun x hx => hctrl x (List.mem_cons_of_mem c hx)
    by_cases e : c = '"'
    · subst e
      have hq : replaceChar '"' ['\\', '"'] ('"' :: cs) =
          '\\' :: '"' :: replaceChar '"' ['\\', '"'] cs := by
        simp [replaceChar]
      rw [hq, jsonUnesc_cons_esc '"' '"' _ rfl, jsonUnesc_quoteEsc hcs hcs32]
      rfl
    · have hq : replaceChar '"' ['\\', '"'] (c :: cs) =
          c :: replaceChar '"' ['\\', '"'] cs := by
        simp [replaceChar, e]
      rw [hq, jsonUnesc_cons c hc (by omega), jsonUnesc_quoteEsc hcs hcs32]
      rfl

theorem createReminderJS_ok {D : Type} (env : DateEnv D)
    (exec : String → Except String String) (o : CreateOptsJS) (n : String)
    (h : o.name = some n) : ∃ cr, createReminderJS env exec o = .ok cr := by
  rw [createReminderJS, h]
  cases hx : exec (createReminderScript env n o) with
  | ok id =>
    exact ⟨{ success := true, id := some id, error := none }, by simp [hx]⟩
  | error e =>
    exact ⟨{ success := false, id := none, error := some e }, by simp [hx]⟩

theorem bulkGo_total {D : Type} (env : DateEnv D)
    (exec : String → Except String String) (list : Option String) :
    ∀ (items : List BulkItem) (created : Nat) (errors : List String),
      (∀ i ∈ items, i.name.isSome = true) →
      ∃ r, bulkGo env exec list items created errors = .ok r ∧
        r.created + r.errors.length = created + errors.length + items.length ∧
        (r.success = true ↔ r.errors = []) := by
  intro items
  induction items with
  | nil =>
    intro created errors _
    refine ⟨_, rfl, by simp, ?_⟩
    simp [List.isEmpty_iff]
  | cons i rest ih =>
    intro created errors h
    have hi : i.name.isSome = true := h i (List.mem_cons_self i rest)
    have hrest : ∀ j ∈ rest, j.name.isSome = true :=
      fun j hj => h j (List.mem_cons_of_mem i hj)
    obtain ⟨n, hn⟩ := Option.isSome_iff_exists.mp hi
    rw [bulkGo, createReminderJS]
    simp only [hn]
    cases hx : exec (createReminderScript env n
        { name := some n, body := i.body, list := list, dueDate := i.dueDate,
          priority := i.priority, flagged := i.flagged }) with
    | ok id =>
      obtain ⟨r, hr, harith, hsucc⟩ := ih (created + 1) errors hrest
      refine ⟨r, ?_, ?_, hsucc⟩
      · simpa using hr
      · simp only [List.length_cons] at harith ⊢
        omega
    | error e =>
      obtain ⟨r, hr, harith, hsucc⟩ := ih created
        (errors ++ ["Failed to create \"" ++ n ++ "\": " ++ e]) hrest
      refine ⟨r, ?_, ?_, hsucc⟩
      · simpa [hn] using hr
      · simp only [List.length_append, List.length_cons, List.length_nil] at harith ⊢
        omega

theorem upcomingPred_iff (now days : Int) (r : Rem) :
    upcomingPred now days r = true ↔
      (r.completed = false ∧
        ∃ d, r.due = some d ∧ now ≤ d ∧ d ≤ now + days * (24 * 60 * 60)) := by
  cases hd : r.due with
  | none => simp [upcomingPred, hd]
  | some d => simp [upcomingPred, hd]

/-! ## Claim C1: create-side escaping and the create-read round trip -/

/-- C1, counterexample.  The claim fails as stated: for the input
`a\n` (which contains a backslash), the create-side escaping function
leaves the backslash untouched — it is not the spec's
backslashes-then-quotes function — and after create (where AppleScript
interprets `\n` as a newline) the read-side emits a raw LF that the
strict decode rejects, so the round trip never returns the original
string. -/
theorem c1_counterexample :
    ('\\' ∈ ['a', '\\', 'n']) ∧
    createRoundTrip ['a', '\\', 'n'] ≠ some ['a', '\\', 'n'] ∧
    escQuotes ['a', '\\', 'n'] ≠ specEscapeRenderer ['a', '\\', 'n'] := by
  refine ⟨by decide, by decide, by decide⟩

/-- C1, amended.  The create renderer escapes only double quotes, so the
create-then-read round trip is byte-for-byte exactly on strings free of
backslashes and of raw control characters (U+0000–U+001F, which
includes CR/LF and TAB): on that domain the round trip succeeds and
returns the input (strings containing double quotes do survive), while
a raw control character — left unescaped by both the create side and
the read side — makes the strict `JSON.parse` decode throw, as the
concrete TAB conjunct shows, so the read-back degrades to the raw-text
fallback instead of the original value. -/
theorem c1_escape_roundtrip :
    (∀ s : List Char, '\\' ∉ s → (∀ c ∈ s, 32 ≤ c.toNat) →
      createRoundTrip s = some s) ∧
    createRoundTrip ['a', '\t', 'b'] = none := by
  constructor
  · intro s h1 hctrl
    have hstore : asUnesc (escQuotes s) = s := asUnesc_escQuotes h1
    have hbs : replaceChar '\\' ['\\', '\\'] s = s := replaceChar_eq_self h1
    have hcrS : '\r' ∉ s := fun hm => absurd (hctrl '\r' hm) (by decide)
    have hq : '\r' ∉ replaceChar '"' ['\\', '"'] s := by
      intro hm
      rcases mem_replaceChar hm with hm | hm
      · simp at hm
      · exact hcrS hm
    have hcr : replaceChar '\r' ['\\', 'n'] (replaceChar '"' ['\\', '"'] s) =
        replaceChar '"' ['\\', '"'] s := replaceChar_eq_self hq
    rw [createRoundTrip, hstore, readEsc, hbs, hcr, jsonUnesc_quoteEsc h1 hctrl]
  · decide

/-- C1, witness: the amended round trip evaluated on the concrete
quote-containing, control-free string `a"b`. -/
theorem c1_escape_roundtrip_witness :
    ('\\' ∉ ['a', '"', 'b']) ∧
    createRoundTrip ['a', '"', 'b'] = some ['a', '"', 'b'] :=
  ⟨by decide, c1_escape_roundtrip.1 ['a', '"', 'b'] (by decide) (by decide)⟩

/-! ## Claim C2: bulk create aggregation -/

/-- C2, counterexample.  With three descriptors whose second one lacks a
name, the bulk coordinator does not report `created: 2` with one error:
the `TypeError` thrown inside `createReminder` (reading `.replace` off
`undefined`) propagates out of the loop, so the whole bulk call throws
and the third item is never attempted. -/
theorem c2_counterexample :
    itemBad.name = none ∧
    bulkCreateReminders dateEnvW execOk [itemA, itemBad, itemC] none =
      .error .typeError ∧
    ∀ r : BulkResult,
      bulkCreateReminders dateEnvW execOk [itemA, itemBad, itemC] none ≠ .ok r := by
  refine ⟨rfl, rfl, ?_⟩
  intro r h
  rw [show bulkCreateReminders dateEnvW execOk [itemA, itemBad, itemC] none =
    .error .typeError from rfl] at h
  exact Except.noConfusion h

set_option maxRecDepth 4000 in
/-- C2, amended.  When every descriptor has a name, the coordinator
attempts every item (succeeded plus failed counts always sum to the item
count, so a reported failure on item k never prevents item k+1) and the
success flag is true iff the error list is empty; concretely, for three
named descriptors whose second one fails at execution, the result is
`created: 2`, one error naming the failed item, `success: false`.  A
descriptor with no name instead throws and aborts the whole batch. -/
theorem c2_bulk_amended :
    (∀ {D : Type} (env : DateEnv D) (exec : String → Except String String)
      (list : Option String) (items : List BulkItem),
      (∀ i ∈ items, i.name.isSome = true) →
      ∃ r, bulkCreateReminders env exec items list = .ok r ∧
        r.created + r.errors.length = items.length ∧
        (r.success = true ↔ r.errors = [])) ∧
    bulkCreateReminders dateEnvW execFailB [itemA, itemB, itemC] none =
      .ok { success := false, created := 2,
            errors := ["Failed to create \"B\": boom"] } := by
  constructor
  · intro D env exec list items h
    obtain ⟨r, hr, ha, hs⟩ := bulkGo_total env exec list items 0 [] h
    exact ⟨r, hr, by simpa using ha, hs⟩
  · rfl

/-- C2, witness: the amended universal part evaluated on one named
descriptor with an always-succeeding executor. -/
theorem c2_bulk_amended_witness :
    ∃ r, bulkCreateReminders dateEnvW execOk [itemA] none = .ok r ∧
      r.created + r.errors.length = 1 ∧ (r.success = true ↔ r.errors = []) :=
  c2_bulk_amended.1 dateEnvW execOk none [itemA] (by decide)

/-! ## Claim C3: priority tables -/

/-- C3.  The symbolic-to-numeric mapping is high→1, medium→5, low→9,
none→0, case-insensitively, with unrecognized names mapping to 0; the
numeric-to-symbolic projection is 0→none, 1–4→high, 5→medium, 6–9→low;
and projecting the representative code of each symbolic name yields that
name back. -/
theorem c3_priority :
    (∀ s : String, toLowerJS s = "high" → getPriorityValue s = 1) ∧
    (∀ s : String, toLowerJS s = "medium" → getPriorityValue s = 5) ∧
    (∀ s : String, toLowerJS s = "low" → getPriorityValue s = 9) ∧
    (∀ s : String, toLowerJS s = "none" → getPriorityValue s = 0) ∧
    (∀ s : String, toLowerJS s ≠ "high" → toLowerJS s ≠ "medium" →
      toLowerJS s ≠ "low" → getPriorityValue s = 0) ∧
    getPriorityName 0 = "none" ∧
    (∀ p : Int, 1 ≤ p → p ≤ 4 → getPriorityName p = "high") ∧
    getPriorityName 5 = "medium" ∧
    (∀ p : Int, 6 ≤ p → p ≤ 9 → getPriorityName p = "low") ∧
    (∀ s : String, toLowerJS s = "high" →
      getPriorityName (getPriorityValue s) = "high") ∧
    (∀ s : String, toLowerJS s = "medium" →
      getPriorityName (getPriorityValue s) = "medium") ∧
    (∀ s : String, toLowerJS s = "low" →
      getPriorityName (getPriorityValue s) = "low") ∧
    (∀ s : String, toLowerJS s = "none" →
      getPriorityName (getPriorityValue s) = "none") := by
  refine ⟨?_, ?_, ?_, ?_, ?_, by decide, ?_, by decide, ?_, ?_, ?_, ?_, ?_⟩
  · intro s h
    simp [getPriorityValue, h]
  · intro s h
    simp [getPriorityValue, h]
  · intro s h
    simp [getPriorityValue, h]
  · intro s h
    simp [getPriorityValue, h]
  · intro s h1 h2 h3
    simp [getPriorityValue, h1, h2, h3]
  · intro p h1 h2
    have a1 : ¬(p = 0) := by omega
    simp [getPriorityName, a1, h1, h2]
  · intro p h1 h2
    have a1 : ¬(p = 0) := by omega
    have a2 : ¬(1 ≤ p ∧ p ≤ 4) := by omega
    have a3 : ¬(p = 5) := by omega
    simp [getPriorityName, a1, a2, a3]
  · intro s h
    have hv : getPriorityValue s = 1 := by simp [getPriorityValue, h]
    rw [hv]
    decide
  · intro s h
    have hv : getPriorityValue s = 5 := by simp [getPriorityValue, h]
    rw [hv]
    decide
  · intro s h
    have hv : getPriorityValue s = 9 := by simp [getPriorityValue, h]
    rw [hv]
    decide
  · intro s h
    have hv : getPriorityValue s = 0 := by simp [getPriorityValue, h]
    rw [hv]
    decide

/-- C3, witness: the tables evaluated at concrete mixed-case and
out-of-vocabulary inputs. -/
theorem c3_priority_witness :
    getPriorityValue "HIGH" = 1 ∧ getPriorityValue "MeDiUm" = 5 ∧
    getPriorityValue "LOW" = 9 ∧ getPriorityValue "None" = 0 ∧
    getPriorityValue "urgent" = 0 ∧ getPriorityName 3 = "high" ∧
    getPriorityName 7 = "low" ∧
    getPriorityName (getPriorityValue "hIgH") = "high" := by
  obtain ⟨h1, h2, h3, h4, h5, _, h7, _, h9, h10, _, _, _⟩ := c3_priority
  exact ⟨h1 "HIGH" (by decide), h2 "MeDiUm" (by decide), h3 "LOW" (by decide),
    h4 "None" (by decide), h5 "urgent" (by decide) (by decide) (by decide),
    h7 3 (by decide) (by decide), h9 7 (by decide) (by decide),
    h10 "hIgH" (by decide)⟩

/-! ## Claim C4: field defaulting in the record normalizers -/

/-- C4, counterexample.  A record coming back from the
search/due-today/overdue/upcoming normalizer with `url` and `flagged`
absent keeps them absent (`undefined`): those queries do not apply the
`|| ""` / `|| false` defaults, so returned records can contain undefined
fields. -/
theorem c4_counterexample :
    (normDatesOnly dateEnvW {}).url = none ∧
    (normDatesOnly dateEnvW {}).flagged = none ∧
    (normDatesOnly dateEnvW {}).priorityName = none :=
  ⟨rfl, rfl, rfl⟩

/-- C4, amended.  `body` is defaulted to the empty string at decode time
for every query (it is a plain string on every decoded record), but the
`url`/`flagged`/`priorityName` defaults are applied only by the
list-scoped fetch (`getReminders`) and the flagged query (`getFlagged`);
the search, due-today, overdue and upcoming normalizers pass `url` and
`flagged` through unchanged, leaving them undefined when absent. -/
theorem c4_amended {D : Type} (env : DateEnv D) (r : RawRec) :
    (normGetReminders env r).url = some (jsOrStr r.url "") ∧
    (normGetReminders env r).flagged = some (jsOrBool r.flagged false) ∧
    (normGetReminders env r).priorityName = some (getPriorityName r.priority) ∧
    (normGetReminders env r).body = r.body ∧
    (normGetFlagged env r).url = some (jsOrStr r.url "") ∧
    (normGetFlagged env r).flagged = some (jsOrBool r.flagged false) ∧
    (normDatesOnly env r).url = r.url ∧
    (normDatesOnly env r).flagged = r.flagged ∧
    (normDatesOnly env r).priorityName = none ∧
    (normDatesOnly env r).body = r.body :=
  ⟨rfl, rfl, rfl, rfl, rfl, rfl, rfl, rfl, rfl, rfl⟩

/-! ## Claim C5: decoder fallback -/

/-- C5.  For every executor output text: empty text decodes to the empty
sequence, text that fails strict structured decoding comes back as the
raw text unchanged, and text that parses comes back parsed — the
function is total, so decoding failure is never itself an error. -/
theorem c5_decode {J : Type} (parse : String → Option J) (s : String) :
    (s = "" → runAppleScriptJSON parse s = DecodeOut.emptyList) ∧
    (s ≠ "" → parse s = none → runAppleScriptJSON parse s = DecodeOut.raw s) ∧
    (∀ j, s ≠ "" → parse s = some j →
      runAppleScriptJSON parse s = DecodeOut.parsed j) := by
  refine ⟨?_, ?_, ?_⟩
  · intro h
    simp [runAppleScriptJSON, h]
  · intro h hp
    simp [runAppleScriptJSON, h, hp]
  · intro j h hp
    simp [runAppleScriptJSON, h, hp]

/-- C5, witness: the three decoder branches evaluated on concrete
outputs with a concrete parser. -/
theorem c5_decode_witness :
    runAppleScriptJSON (fun t => if t = "[1]" then some 1 else none) "" =
      DecodeOut.emptyList ∧
    runAppleScriptJSON (fun t => if t = "[1]" then some 1 else none) "done" =
      DecodeOut.raw "done" ∧
    runAppleScriptJSON (fun t => if t = "[1]" then some 1 else none) "[1]" =
      DecodeOut.parsed 1 := by
  refine ⟨(c5_decode _ "").1 rfl, ?_, ?_⟩
  · exact (c5_decode _ "done").2.1 (by decide) (by decide)
  · exact (c5_decode _ "[1]").2.2 1 (by decide) (by decide)

/-! ## Claim C6: timestamp normalizer -/

/-- C6.  The timestamp normalizer returns empty for the empty string and
for the `missing value` sentinel, returns empty (never raising, never
failing the record) for every unparseable string, and re-emits the
ISO-8601 instant text for every parseable string. -/
theorem c6_formatISODate {D : Type} (env : DateEnv D) (s : String) :
    (s = "" → formatISODate env s = "") ∧
    (s = "missing value" → formatISODate env s = "") ∧
    (env.parse s = none → formatISODate env s = "") ∧
    (∀ d, s ≠ "" → s ≠ "missing value" → env.parse s = some d →
      formatISODate env s = env.toISO d) := by
  refine ⟨?_, ?_, ?_, ?_⟩
  · intro h
    simp [formatISODate, h]
  · intro h
    simp [formatISODate, h]
  · intro hp
    by_cases h : s = "" ∨ s = "missing value"
    · simp [formatISODate, h]
    · simp [formatISODate, h, hp]
  · intro d h1 h2 hp
    simp [formatISODate, h1, h2, hp]

/-- C6, witness: the normalizer branches evaluated at concrete inputs
under the concrete date environment. -/
theorem c6_formatISODate_witness :
    formatISODate dateEnvW "" = "" ∧
    formatISODate dateEnvW "missing value" = "" ∧
    formatISODate dateEnvW "next tuesday-ish" = "" ∧
    formatISODate dateEnvW "2024-01-01" = "1970-01-01T00:00:00.000Z" := by
  refine ⟨(c6_formatISODate dateEnvW "").1 rfl,
    (c6_formatISODate dateEnvW "missing value").2.1 rfl,
    (c6_formatISODate dateEnvW "next tuesday-ish").2.2.1 (by decide), ?_⟩
  exact (c6_formatISODate dateEnvW "2024-01-01").2.2.2 0 (by decide) (by decide)
    (by decide)

/-! ## Claim C7: the upcoming query -/

/-- C7.  The upcoming(days) query returns exactly the incomplete
reminders whose due instant lies in the inclusive window
`[now, now + days*24h]` (a reminder due exactly at the upper bound is
included, one due one second later is excluded), its results are sorted
ascending by due instant via the only post-hoc sort in the module, and
every other query — due-today, overdue, flagged, search, list-scoped
fetch — returns an order-preserving subsequence of the enumeration. -/
theorem c7_upcoming (now days dayStart : Int) (store : List Rem) (q : String)
    (lim : Nat) (cf : Option Bool) :
    (∀ r : Rem, r ∈ getUpcomingModel now days store ↔
      (r ∈ store ∧ r.completed = false ∧
        ∃ d, r.due = some d ∧ now ≤ d ∧ d ≤ now + days * (24 * 60 * 60))) ∧
    List.Sorted relDue (getUpcomingModel now days store) ∧
    (getUpcomingModel now days store).Perm (store.filter (upcomingPred now days)) ∧
    (0 ≤ days → remAt (now + days * (24 * 60 * 60)) ∈
      getUpcomingModel now days [remAt (now + days * (24 * 60 * 60))]) ∧
    (remAt (now + days * (24 * 60 * 60) + 1) ∉
      getUpcomingModel now days [remAt (now + days * (24 * 60 * 60) + 1)]) ∧
    (dueTodayModel dayStart store).Sublist store ∧
    (overdueModel now store).Sublist store ∧
    (flaggedModel store).Sublist store ∧
    (searchFilterModel q lim store).Sublist store ∧
    (getRemindersModel cf lim store).Sublist store := by
  refine ⟨?_, List.sorted_insertionSort relDue _, List.perm_insertionSort relDue _,
    ?_, ?_, List.filter_sublist store, List.filter_sublist store,
    List.filter_sublist store, ?_, ?_⟩
  · intro r
    rw [getUpcomingModel, List.mem_insertionSort, List.mem_filter, upcomingPred_iff]
  · intro hd
    rw [getUpcomingModel, List.mem_insertionSort, List.mem_filter]
    refine ⟨List.mem_cons_self _ _, ?_⟩
    simpa [upcomingPred, remAt] using hd
  · intro hmem
    rw [getUpcomingModel, List.mem_insertionSort, List.mem_filter] at hmem
    have hp := hmem.2
    simp [upcomingPred, remAt] at hp
  · exact (List.take_sublist lim _).trans (List.filter_sublist store)
  · exact (List.take_sublist lim _).trans (List.filter_sublist store)

/-- C7, witness: the boundary conjuncts evaluated at `now = 0`,
`days = 7`: a reminder due exactly 7×24h from now is included, one due
one second later is excluded. -/
theorem c7_upcoming_witness :
    remAt (0 + 7 * (24 * 60 * 60)) ∈
      getUpcomingModel 0 7 [remAt (0 + 7 * (24 * 60 * 60))] ∧
    remAt (0 + 7 * (24 * 60 * 60) + 1) ∉
      getUpcomingModel 0 7 [remAt (0 + 7 * (24 * 60 * 60) + 1)] :=
  ⟨(c7_upcoming 0 7 0 [] "" 0 none).2.2.2.1 (by decide),
   (c7_upcoming 0 7 0 [] "" 0 none).2.2.2.2.1⟩

/-! ## Claim C8: out-of-domain priority handling in the renderer -/

/-- C8, counterexample.  The claim fails as stated for update: an update
request whose only provided field is the out-of-range priority 15 does
not proceed — dropping the priority line leaves no update lines, so the
operation fails with the `No updates provided` error instead. -/
theorem c8_counterexample :
    updateReminderJS dateEnvW execOk "rid-1"
        { priority := some (PriorityArg.num 15) } =
      .immediate { success := false, error := some "No updates provided" } ∧
    ((15 : Int) < 0 ∨ 9 < (15 : Int)) :=
  ⟨rfl, by decide⟩

/-- C8, amended.  An out-of-range numeric priority always causes the
set-priority command line to be dropped: the create script and the
update lines are identical to those rendered with no priority at all
(so create, and any update that also sets another field, proceeds
without the priority); the renderer itself is total — with a name
present, `createReminder` always returns a result rather than raising —
and symbolic priorities always resolve into [0, 9], so only numeric
input can be dropped.  The one exception is an update whose only field
is the out-of-range priority, which returns the `No updates provided`
error (see the counterexample). -/
theorem c8_amended :
    (∀ {D : Type} (env : DateEnv D) (nm : String) (o : CreateOptsJS) (p : Int),
      p < 0 ∨ 9 < p →
      createReminderScript env nm { o with priority := some (PriorityArg.num p) } =
        createReminderScript env nm { o with priority := none }) ∧
    (∀ {D : Type} (env : DateEnv D) (u : UpdateOpts) (p : Int),
      p < 0 ∨ 9 < p →
      updateLines env { u with priority := some (PriorityArg.num p) } =
        updateLines env { u with priority := none }) ∧
    (∀ {D : Type} (env : DateEnv D) (exec : String → Except String String)
      (o : CreateOptsJS) (n : String), o.name = some n →
      ∃ cr, createReminderJS env exec o = .ok cr) ∧
    (∀ s : String, 0 ≤ getPriorityValue s ∧ getPriorityValue s ≤ 9) := by
  refine ⟨?_, ?_, fun env exec o n h => createReminderJS_ok env exec o n h, ?_⟩
  · intro D env nm o p h
    have hn : ¬(0 ≤ p ∧ p ≤ 9) := by omega
    simp [createReminderScript, createPriorityLine, resolvePriority, hn]
  · intro D env u p h
    have hn : ¬(0 ≤ p ∧ p ≤ 9) := by omega
    simp [updateLines, updatePriorityLines, resolvePriority, hn]
  · intro s
    dsimp only [getPriorityValue]
    split_ifs <;> norm_num

/-- C8, witness: the amended statements evaluated at the concrete
out-of-range priority 15. -/
theorem c8_amended_witness :
    createReminderScript dateEnvW "T" { priority := some (PriorityArg.num 15) } =
      createReminderScript dateEnvW "T" { priority := none } ∧
    updateLines dateEnvW { priority := some (PriorityArg.num 15) } =
      updateLines dateEnvW { priority := none } ∧
    (∃ cr, createReminderJS dateEnvW execOk { name := some "T" } = .ok cr) ∧
    (0 ≤ getPriorityValue "urgent" ∧ getPriorityValue "urgent" ≤ 9) :=
  ⟨c8_amended.1 dateEnvW "T" {} 15 (Or.inr (by decide)),
   c8_amended.2.1 dateEnvW {} 15 (Or.inr (by decide)),
   c8_amended.2.2.1 dateEnvW execOk { name := some "T" } "T" rfl,
   c8_amended.2.2.2 "urgent"⟩

/-! ## Claim C9: required-field validation and the error payload -/

/-- C9, counterexample.  The claim's error message template fails for
the bulk tools: a bulk-complete call with no `reminder_ids` raises
`reminder_ids array is required`, not `reminder_ids is required`
(validation still happens before any action exists, and the transport
still wraps the message into an `Error:` payload with the error flag). -/
theorem c9_counterexample :
    handleToolCall "reminders_bulk_complete" {} =
      .error "reminder_ids array is required" ∧
    "reminder_ids array is required" ≠ "reminder_ids is required" ∧
    wrapToolCall (fun _ => "") "reminders_bulk_complete" {} =
      { text := "Error: reminder_ids array is required", isError := true } :=
  ⟨rfl, by decide, rfl⟩

/-- C9, amended.  For every tool with a mandatory field, an invocation
missing that field makes the handler return the validation error before
any action (hence any subprocess) exists — `<field> is required` for the
single-field tools and `<field> array is required` for the bulk array
tools — and the transport wrapper converts it into an
`Error: <message>` payload with the error flag set, for every value of
the remaining arguments and of the action runner. -/
theorem c9_amended (args : ToolArgs) (run : ToolAction → String) :
    (args.name = none →
      handleToolCall "reminders_create" args = .error "name is required" ∧
      wrapToolCall run "reminders_create" args =
        { text := "Error: name is required", isError := true }) ∧
    (args.reminder_id = none →
      handleToolCall "reminders_complete" args = .error "reminder_id is required" ∧
      wrapToolCall run "reminders_complete" args =
        { text := "Error: reminder_id is required", isError := true }) ∧
    (args.reminder_id = none →
      handleToolCall "reminders_uncomplete" args = .error "reminder_id is required" ∧
      wrapToolCall run "reminders_uncomplete" args =
        { text := "Error: reminder_id is required", isError := true }) ∧
    (args.reminder_id = none →
      handleToolCall "reminders_delete" args = .error "reminder_id is required" ∧
      wrapToolCall run "reminders_delete" args =
        { text := "Error: reminder_id is required", isError := true }) ∧
    (args.reminder_id = none →
      handleToolCall "reminders_update" args = .error "reminder_id is required" ∧
      wrapToolCall run "reminders_update" args =
        { text := "Error: reminder_id is required", isError := true }) ∧
    (args.query = none →
      handleToolCall "reminders_search" args = .error "query is required" ∧
      wrapToolCall run "reminders_search" args =
        { text := "Error: query is required", isError := true }) ∧
    (args.name = none →
      handleToolCall "reminders_create_list" args = .error "name is required" ∧
      wrapToolCall run "reminders_create_list" args =
        { text := "Error: name is required", isError := true }) ∧
    (args.name = none →
      handleToolCall "reminders_delete_list" args = .error "name is required" ∧
      wrapToolCall run "reminders_delete_list" args =
        { text := "Error: name is required", isError := true }) ∧
    (args.reminders = none →
      handleToolCall "reminders_bulk_create" args =
        .error "reminders array is required" ∧
      wrapToolCall run "reminders_bulk_create" args =
        { text := "Error: reminders array is required", isError := true }) ∧
    (args.reminder_ids = none →
      handleToolCall "reminders_bulk_complete" args =
        .error "reminder_ids array is required" ∧
      wrapToolCall run "reminders_bulk_complete" args =
        { text := "Error: reminder_ids array is required", isError := true }) ∧
    (args.reminder_ids = none →
      handleToolCall "reminders_bulk_delete" args =
        .error "reminder_ids array is required" ∧
      wrapToolCall run "reminders_bulk_delete" args =
        { text := "Error: reminder_ids array is required", isError := true }) ∧
    (args.name = none →
      handleToolCall "reminders_open_list" args = .error "name is required" ∧
      wrapToolCall run "reminders_open_list" args =
        { text := "Error: name is required", isError := true }) := by
  obtain ⟨nm, rid, q, l, b, dd, pr, fl, dy, lim, cp, rs, rids⟩ := args
  refine ⟨?_, ?_, ?_, ?_, ?_, ?_, ?_, ?_, ?_, ?_, ?_, ?_⟩
  all_goals intro h
  all_goals subst h
  all_goals exact ⟨rfl, rfl⟩

/-- C9, witness: the amended validation behaviour evaluated on the
all-absent argument bag. -/
theorem c9_amended_witness :
    handleToolCall "reminders_create" {} = .error "name is required" ∧
    wrapToolCall (fun _ => "") "reminders_create" {} =
      { text := "Error: name is required", isError := true } ∧
    handleToolCall "reminders_search" {} = .error "query is required" :=
  ⟨((c9_amended {} (fun _ => "")).1 rfl).1,
   ((c9_amended {} (fun _ => "")).1 rfl).2,
   ((c9_amended {} (fun _ => "")).2.2.2.2.2.1 rfl).1⟩

/-! ## Claim C10: update with no fields -/

/-- C10.  An update request providing none of the updatable fields
returns `success: false` with error `No updates provided` immediately
(the `immediate` outcome renders no script and consults no executor, so
no subprocess is spawned and the store is untouched), for every date
environment, executor and reminder id. -/
theorem c10_no_updates {D : Type} (env : DateEnv D)
    (exec : String → Except String String) (id : String) :
    updateReminderJS env exec id {} =
      .immediate { success := false, error := some "No updates provided" } := rfl
